import Mathlib

/-!
Verification of the Aurie framework's module-lifecycle core
(`src/Aurie/source/AurieMain.cpp`).

The file shallowly embeds the attach worker (`ArProcessAttach`), the
unload sequencer (`ArProcessDetach`) and the detach arm of `DllMain`.
External collaborator results (OS queries, hook return values, key
presses, the set of modules the folder scanner maps) are supplied by an
environment record; observable collaborator calls are recorded as an
event trace.  Helper routines of the repository whose sources are not in
`src/` (`MdpDispatchEntry`, `MdpMarkModuleForPurge`,
`MdpPurgeMarkedModules`, `MdpUnmapImage`, `MdIsImageInitialized`, module
creation by the loader) are modelled from the spec, as marked on each.
-/

namespace Aurie

/-- The status taxonomy of spec §7: success or a closed set of failures. -/
inductive AurieStatus where
  | success
  | not_found
  | already_exists
  | invalid_parameter
  | insufficient_memory
  | module_init_failed
  | timeout
  | unsupported
  | unknown
  deriving DecidableEq, Repr

/-- `AurieSuccess(status)`: true exactly on the success status. -/
def AurieSuccess : AurieStatus → Bool
  | .success => true
  | _ => false

/-- One tracked block of process memory; the owning record holds it, the
back-reference of the C++ struct is the containment itself. -/
structure MemoryAllocation where
  allocationBase : Nat
  isPersistent : Bool
  deriving DecidableEq, Repr

/-- The lifecycle flag bits of a module record (`entry.Flags`). -/
structure AurieModuleFlags where
  isPreloaded : Bool
  isInitialized : Bool
  markedForPurge : Bool
  deriving DecidableEq, Repr

/-- A module record (`AurieModule`).  Hooks are modelled by the status the
hook returns when invoked; `none` means the export is absent.  `id` stands
for the record's identity (the C++ object address): the initial image gets
id 0, the n-th mapped mod id n. -/
structure AurieModule where
  id : Nat
  imagePath : String
  flags : AurieModuleFlags
  preinitHook : Option AurieStatus
  initHook : Option AurieStatus
  unloadHook : Option AurieStatus
  memoryAllocations : List MemoryAllocation
  deriving DecidableEq, Repr

/-- The process-wide loader state: `Internal::g_LdrModuleList` and the
`g_ArInitialImage` pointer (as the id of the record it points to). -/
structure AurieState where
  ldrModuleList : List AurieModule
  initialImage : Option Nat
  deriving DecidableEq, Repr

/-- Observable collaborator calls made by the embedded routines. -/
inductive Event where
  | fatalMessage (text : String)
  | dispatchPreinit (id : Nat)
  | dispatchInit (id : Nat)
  | dispatchUnload (id : Nat)
  | unmapImage (id : Nat)
  | freeAllocation (owner : Nat) (base : Nat)
  | resumeProcess
  | waitForWindow
  | waitForInputIdle
  | sleepPoll
  | freeLibrary
  deriving DecidableEq, Repr

/-- Modelled from the spec: `Internal::MdpDispatchEntry` invokes the given
hook of the record and returns its status; a missing hook "is treated as
automatic success" (spec §4.3). -/
def MdpDispatchEntry : Option AurieStatus → AurieStatus
  | some st => st
  | none => .success

/-- Modelled from the spec: `Internal::MdpMarkModuleForPurge` "sets
`MarkedForPurge`" on the record (spec §4.3). -/
def MdpMarkModuleForPurge (m : AurieModule) : AurieModule :=
  { m with flags := { m.flags with markedForPurge := true } }

/-- Modelled from the spec: `MdIsImageInitialized` reads the record's
`IsInitialized` stage flag (spec §4.3 idempotence guard). -/
def MdIsImageInitialized (m : AurieModule) : Bool :=
  m.flags.isInitialized

/-- Modelled from the spec: `Internal::MdpPurgeMarkedModules` keeps only
records not `MarkedForPurge`, preserving relative order, and "never purges
the initial image's Record even if it were (incorrectly) marked"
(spec §4.4).  `initialId` is the id `g_ArInitialImage` points to. -/
def MdpPurgeMarkedModules (initialId : Option Nat) (reg : List AurieModule) :
    List AurieModule :=
  reg.filter fun m => !m.flags.markedForPurge || decide (some m.id = initialId)

/-- Modelled from the spec: `Internal::MdpUnmapImage` on one record —
"invoke its `Unload` hook if present (best-effort ...), then unmap its
image and run `FreeAll` against the Memory Tracker for that Record"
(spec §4.7).  The record stays in the list (second argument `false` at the
call site); its allocation set is emptied by `FreeAll`. -/
def MdpUnmapImage (m : AurieModule) : AurieModule × List Event :=
  ({ m with memoryAllocations := [] },
   (match m.unloadHook with
    | some _ => [Event.dispatchUnload m.id]
    | none => []) ++
   [Event.unmapImage m.id] ++
   m.memoryAllocations.map fun a => Event.freeAllocation m.id a.allocationBase)

/-- One iteration of the preload loop (AurieMain.cpp lines 128-140): run
`MdpDispatchEntry` on `ModulePreinitialize`; on failure mark for purge,
on success set `IsPreloaded`. -/
def preloadStep (m : AurieModule) : AurieModule :=
  if AurieSuccess (MdpDispatchEntry m.preinitHook) then
    { m with flags := { m.flags with isPreloaded := true } }
  else
    MdpMarkModuleForPurge m

/-- The preload loop's effect on the registry (each iteration touches only
its own entry, so the loop is a map). -/
def preloadPassList (l : List AurieModule) : List AurieModule :=
  l.map preloadStep

/-- The preload loop's dispatch trace: `MdpDispatchEntry` is called once
per entry, in registry order. -/
def preloadPassEvents (l : List AurieModule) : List Event :=
  l.map fun m => Event.dispatchPreinit m.id

/-- One iteration of the init loop (AurieMain.cpp lines 169-185): skip
records already initialized, else dispatch `ModuleInitialize`; on failure
mark for purge, on success set `IsInitialized`. -/
def initStep (m : AurieModule) : AurieModule :=
  if MdIsImageInitialized m then m
  else if AurieSuccess (MdpDispatchEntry m.initHook) then
    { m with flags := { m.flags with isInitialized := true } }
  else
    MdpMarkModuleForPurge m

/-- The init loop's effect on the registry. -/
def initPassList (l : List AurieModule) : List AurieModule :=
  l.map initStep

/-- The init loop's dispatch trace: entries already initialized are
skipped by the `continue`, so they emit nothing. -/
def initPassEvents (l : List AurieModule) : List Event :=
  l.filterMap fun m =>
    if MdIsImageInitialized m then none else some (Event.dispatchInit m.id)

/-- `IMAGE_SUBSYSTEM_WINDOWS_GUI` of the PE format. -/
def IMAGE_SUBSYSTEM_WINDOWS_GUI : Nat := 2

/-- What the folder scanner found for one mod image: its path and the
statuses its three optional exports would return when invoked. -/
structure ModSpec where
  path : String
  preinit : Option AurieStatus
  init : Option AurieStatus
  unload : Option AurieStatus
  deriving DecidableEq, Repr

/-- Modelled from the spec: the Module Loader (`MdpCreateModule` and
mapping) produces a fresh Module Record with all lifecycle flags clear and
no owned allocations (spec §4.1, §3). -/
def mkMod (n : Nat) (s : ModSpec) : AurieModule :=
  { id := n
    imagePath := s.path
    flags := ⟨false, false, false⟩
    preinitHook := s.preinit
    initHook := s.init
    unloadHook := s.unload
    memoryAllocations := [] }

/-- The records `Internal::MdpMapFolder` appends, given ids n, n+1, ... -/
def mapFolderModulesFrom (n : Nat) : List ModSpec → List AurieModule
  | [] => []
  | s :: rest => mkMod n s :: mapFolderModulesFrom (n + 1) rest

/-- The records the folder scan appends after the initial image (id 0):
the i-th discovered mod gets id i+1. -/
def mapFolderModules (mods : List ModSpec) : List AurieModule :=
  mapFolderModulesFrom 1 mods

/-- Results of the external collaborators consulted by `ArProcessAttach`,
fixed up front: OS queries, the scanned mods, and the successive readings
of the END key taken by the final polling loop. -/
structure AttachEnv where
  queryImagePathOk : Bool
  processName : String
  createModuleStatus : AurieStatus
  initialPreinitHook : Option AurieStatus
  initialInitHook : Option AurieStatus
  initialUnloadHook : Option AurieStatus
  getImageFolderStatus : AurieStatus
  mods : List ModSpec
  suspendQueryStatus : AurieStatus
  isProcessSuspended : Bool
  subsystem : Nat
  endKeyStates : List Bool
  deriving DecidableEq, Repr

/-- The initial module record built from the host's own image
(AurieMain.cpp lines 75-97): fresh record, id 0, hooks as the host image
exports them. -/
def initialModule (env : AttachEnv) : AurieModule :=
  { id := 0
    imagePath := env.processName
    flags := ⟨false, false, false⟩
    preinitHook := env.initialPreinitHook
    initHook := env.initialInitHook
    unloadHook := env.initialUnloadHook
    memoryAllocations := [] }

/-- The registry after `MdpAddModuleToList` of the initial image and the
`MdpMapFolder` scan (AurieMain.cpp lines 95-125). -/
def attachRegistryAfterMap (env : AttachEnv) : List AurieModule :=
  initialModule env :: mapFolderModules env.mods

/-- The registry after the preload loop (lines 128-140). -/
def attachRegistryAfterPreload (env : AttachEnv) : List AurieModule :=
  preloadPassList (attachRegistryAfterMap env)

/-- The registry after the first `MdpPurgeMarkedModules` (line 144). -/
def attachRegistryAfterFirstPurge (env : AttachEnv) : List AurieModule :=
  MdpPurgeMarkedModules (some 0) (attachRegistryAfterPreload env)

/-- The resume step (lines 146-151): `ElpResumeProcess` is called when the
suspension query fails or reports the process suspended. -/
def attachResumeEvents (env : AttachEnv) : List Event :=
  if !AurieSuccess env.suspendQueryStatus || env.isProcessSuspended then
    [Event.resumeProcess]
  else []

/-- The window-readiness wait (lines 156-164): performed only when the
host image's subsystem is the GUI subsystem. -/
def attachWindowWaitEvents (env : AttachEnv) : List Event :=
  if env.subsystem = IMAGE_SUBSYSTEM_WINDOWS_GUI then
    [Event.waitForWindow]
  else []

/-- The registry after the init loop (lines 169-185). -/
def attachRegistryAfterInitPass (env : AttachEnv) : List AurieModule :=
  initPassList (attachRegistryAfterFirstPurge env)

/-- The registry after the second `MdpPurgeMarkedModules` (line 189). -/
def attachRegistryFinal (env : AttachEnv) : List AurieModule :=
  MdpPurgeMarkedModules (some 0) (attachRegistryAfterInitPass env)

/-- The polling loop and exit of the worker (lines 191-197):
`GetAsyncKeyState(VK_END)` is read once per round; a false reading sleeps
and polls again, the first true reading leaves the loop and reaches
`FreeLibraryAndExitThread`.  A trace whose readings are all false leaves
the worker still inside the loop. -/
def endKeyWait : List Bool → List Event
  | [] => []
  | k :: rest =>
    if k then [Event.freeLibrary] else Event.sleepPoll :: endKeyWait rest

/-- `ArProcessAttach` (AurieMain.cpp lines 53-198): the attach worker.
Returns the loader state it leaves behind and the trace of collaborator
calls it made.  Each of the three core-setup failures shows one fatal
message box and returns at once. -/
def ArProcessAttach (env : AttachEnv) : AurieState × List Event :=
  if env.queryImagePathOk = false then
    ({ ldrModuleList := [], initialImage := none },
     [Event.fatalMessage "Failed to query process path!"])
  else if AurieSuccess env.createModuleStatus = false then
    ({ ldrModuleList := [], initialImage := none },
     [Event.fatalMessage "Failed to create initial module!"])
  else if AurieSuccess env.getImageFolderStatus = false then
    ({ ldrModuleList := [initialModule env], initialImage := some 0 },
     [Event.fatalMessage "Failed to get initial folder!"])
  else
    ({ ldrModuleList := attachRegistryFinal env, initialImage := some 0 },
     preloadPassEvents (attachRegistryAfterMap env) ++
     attachResumeEvents env ++
     attachWindowWaitEvents env ++
     [Event.waitForInputIdle] ++
     initPassEvents (attachRegistryAfterFirstPurge env) ++
     endKeyWait env.endKeyStates)

/-- One iteration of the detach unmap loop (AurieMain.cpp lines 19-31):
the initial image (`&entry == g_ArInitialImage`) is skipped, every other
record is unmapped in place. -/
def detachUnmapEntry (initialId : Option Nat) (m : AurieModule) :
    AurieModule × List Event :=
  if some m.id = initialId then (m, []) else MdpUnmapImage m

/-- The module list after the detach unmap loop (records stay in the
list). -/
def detachUnmappedList (s : AurieState) : List AurieModule :=
  s.ldrModuleList.map fun m => (detachUnmapEntry s.initialImage m).1

/-- The unmap loop's event trace, in registry order. -/
def detachUnmapEvents (s : AurieState) : List Event :=
  (s.ldrModuleList.map fun m => (detachUnmapEntry s.initialImage m).2).flatten

/-- The record `g_ArInitialImage` points to when the persistent-memory
loop runs (the unmap loop left it untouched). -/
def detachInitialRecord (s : AurieState) : Option AurieModule :=
  (detachUnmappedList s).find? fun m => decide (some m.id = s.initialImage)

/-- The persistent-memory loop (lines 34-41): `MmpFreeMemory` on each of
the initial image's allocations. -/
def detachFreeEvents (s : AurieState) : List Event :=
  match detachInitialRecord s with
  | some m => m.memoryAllocations.map fun a =>
      Event.freeAllocation m.id a.allocationBase
  | none => []

/-- The loader state right after `MemoryAllocations.clear()` on the
initial image (line 44), before the list itself is cleared. -/
def detachAfterInitialFree (s : AurieState) : AurieState :=
  { ldrModuleList :=
      (detachUnmappedList s).map fun m =>
        if some m.id = s.initialImage then { m with memoryAllocations := [] }
        else m
    initialImage := s.initialImage }

/-- `ArProcessDetach` (AurieMain.cpp lines 13-49): the unload sequencer.
Unmaps every non-initial record in registry order, frees the initial
image's allocations, then nulls the initial-image pointer and clears the
module list. -/
def ArProcessDetach (s : AurieState) : AurieState × List Event :=
  ({ ldrModuleList := [], initialImage := none },
   detachUnmapEvents s ++ detachFreeEvents s)

/-- The `DLL_PROCESS_DETACH` arm of `DllMain` (AurieMain.cpp lines
228-237): `lpvReserved` non-null (here `true`) means OS teardown — return
`TRUE` at once without running the sequencer; otherwise `ArProcessDetach`
runs synchronously.  The first component is the `BOOL` `DllMain`
returns. -/
def DllMainDetach (reservedNonNull : Bool) (s : AurieState) :
    Bool × (AurieState × List Event) :=
  if reservedNonNull then (true, (s, []))
  else (true, ArProcessDetach s)

/-- `p`-events all come strictly before `q`-events in the trace `l`. -/
def phaseOrdered (l : List Event) (p q : Event → Prop) : Prop :=
  ∀ i j : Fin l.length, p (l.get i) → q (l.get j) → (i : Nat) < (j : Nat)

/-- Extracts the module id of an unmap event. -/
def unmapEventId : Event → Option Nat
  | .unmapImage i => some i
  | _ => none

/-- Extracts the module id of a preload dispatch event. -/
def preinitEventId : Event → Option Nat
  | .dispatchPreinit i => some i
  | _ => none

/-- Extracts the module id of an init dispatch event. -/
def initEventId : Event → Option Nat
  | .dispatchInit i => some i
  | _ => none

/-- Field-by-field effect of one preload iteration on one record: only
the flag bits move (`IsPreloaded` on success, `MarkedForPurge` on
failure); identity, hooks and allocations are untouched. -/
def preloadRel (m m2 : AurieModule) : Prop :=
  m2.id = m.id ∧ m2.imagePath = m.imagePath ∧
  m2.preinitHook = m.preinitHook ∧ m2.initHook = m.initHook ∧
  m2.unloadHook = m.unloadHook ∧
  m2.memoryAllocations = m.memoryAllocations ∧
  (if AurieSuccess (MdpDispatchEntry m.preinitHook) then
    m2.flags = { m.flags with isPreloaded := true }
  else
    m2.flags = { m.flags with markedForPurge := true })

/-- Field-by-field effect of one init iteration on one record. -/
def initRel (m m2 : AurieModule) : Prop :=
  m2.id = m.id ∧ m2.imagePath = m.imagePath ∧
  m2.preinitHook = m.preinitHook ∧ m2.initHook = m.initHook ∧
  m2.unloadHook = m.unloadHook ∧
  m2.memoryAllocations = m.memoryAllocations ∧
  (if MdIsImageInitialized m then m2.flags = m.flags
  else if AurieSuccess (MdpDispatchEntry m.initHook) then
    m2.flags = { m.flags with isInitialized := true }
  else
    m2.flags = { m.flags with markedForPurge := true })

/-- Field-by-field effect of one detach unmap iteration on one record:
the initial image is untouched, any other record only loses its
allocations. -/
def unmapRel (initialId : Option Nat) (m m2 : AurieModule) : Prop :=
  m2.id = m.id ∧ m2.imagePath = m.imagePath ∧
  m2.preinitHook = m.preinitHook ∧ m2.initHook = m.initHook ∧
  m2.unloadHook = m.unloadHook ∧ m2.flags = m.flags ∧
  (if some m.id = initialId then m2 = m else m2.memoryAllocations = [])

/-- A concrete attach environment: two discovered mods, the first failing
its preload hook, a failing suspension query, a windowed host, END pressed
on the second poll. -/
def envA : AttachEnv :=
  { queryImagePathOk := true
    processName := "host.exe"
    createModuleStatus := .success
    initialPreinitHook := none
    initialInitHook := none
    initialUnloadHook := none
    getImageFolderStatus := .success
    mods := [⟨"A.dll", some .module_init_failed, some .success, none⟩,
             ⟨"B.dll", some .success, some .success, some .success⟩]
    suspendQueryStatus := .not_found
    isProcessSuspended := false
    subsystem := 2
    endKeyStates := [false, true] }

/-- A concrete attach environment whose host-path query fails. -/
def envB : AttachEnv :=
  { envA with queryImagePathOk := false }

/-- A concrete loader state at detach time: the initial image (id 0) holds
two persistent allocations, one mod (id 1) holds an allocation and an
unload hook. -/
def stateD : AurieState :=
  { ldrModuleList :=
      [⟨0, "host.exe", ⟨true, true, false⟩, none, none, none,
        [⟨100, true⟩, ⟨200, true⟩]⟩,
       ⟨1, "B.dll", ⟨true, true, false⟩, some .success, some .success,
        some .success, [⟨300, false⟩]⟩]
    initialImage := some 0 }

/-! ## Basic lemmas about the passes -/

theorem preloadStep_id (m : AurieModule) : (preloadStep m).id = m.id := by
  unfold preloadStep MdpMarkModuleForPurge
  split <;> rfl

theorem initStep_id (m : AurieModule) : (initStep m).id = m.id := by
  unfold initStep MdpMarkModuleForPurge
  split
  · rfl
  · split <;> rfl

theorem initStep_of_initialized {m : AurieModule}
    (h : m.flags.isInitialized = true) : initStep m = m := by
  unfold initStep MdIsImageInitialized
  simp [h]

theorem MdpUnmapImage_fst_id (m : AurieModule) :
    (MdpUnmapImage m).1.id = m.id := rfl

theorem mkMod_id (n : Nat) (s : ModSpec) : (mkMod n s).id = n := rfl

theorem mem_mapFolderModulesFrom {n : Nat} {l : List ModSpec}
    {m : AurieModule} (h : m ∈ mapFolderModulesFrom n l) :
    ∃ j, ∃ hj : j < l.length, m = mkMod (n + j) (l.get ⟨j, hj⟩) := by
  induction l generalizing n with
  | nil => simp [mapFolderModulesFrom] at h
  | cons s rest ih =>
    rw [mapFolderModulesFrom] at h
    rcases List.mem_cons.mp h with h1 | h2
    · exact ⟨0, by simp, by simpa using h1⟩
    · obtain ⟨j, hj, hm⟩ := ih h2
      refine ⟨j + 1, by simpa using hj, ?_⟩
      have : n + 1 + j = n + (j + 1) := by omega
      rw [this] at hm
      simpa using hm

theorem mem_attachRegistryAfterMap_id_succ {env : AttachEnv}
    {m : AurieModule} {i : Nat} (hi : i < env.mods.length)
    (hm : m ∈ attachRegistryAfterMap env) (hid : m.id = i + 1) :
    m = mkMod (i + 1) (env.mods.get ⟨i, hi⟩) := by
  unfold attachRegistryAfterMap at hm
  rcases List.mem_cons.mp hm with h1 | h2
  · rw [h1] at hid
    simp [initialModule] at hid
  · obtain ⟨j, hj, hmk⟩ := mem_mapFolderModulesFrom h2
    have hjid : m.id = 1 + j := by rw [hmk]; rfl
    have hji : j = i := by omega
    subst hji
    have : 1 + j = j + 1 := by omega
    rw [this] at hmk
    exact hmk

theorem attach_run_eq (env : AttachEnv)
    (hq : env.queryImagePathOk = true)
    (hc : AurieSuccess env.createModuleStatus = true)
    (hf : AurieSuccess env.getImageFolderStatus = true) :
    ArProcessAttach env =
      ({ ldrModuleList := attachRegistryFinal env, initialImage := some 0 },
       preloadPassEvents (attachRegistryAfterMap env) ++
       attachResumeEvents env ++
       attachWindowWaitEvents env ++
       [Event.waitForInputIdle] ++
       initPassEvents (attachRegistryAfterFirstPurge env) ++
       endKeyWait env.endKeyStates) := by
  unfold ArProcessAttach
  simp [hq, hc, hf]

/-! ## Shape lemmas: which constructors each trace segment can hold -/

theorem preloadPassEvents_shape {l : List AurieModule} {e : Event}
    (h : e ∈ preloadPassEvents l) : ∃ i, e = Event.dispatchPreinit i := by
  unfold preloadPassEvents at h
  obtain ⟨m, _, he⟩ := List.mem_map.mp h
  exact ⟨m.id, he.symm⟩

theorem initPassEvents_shape {l : List AurieModule} {e : Event}
    (h : e ∈ initPassEvents l) :
    ∃ m, m ∈ l ∧ MdIsImageInitialized m = false ∧
      e = Event.dispatchInit m.id := by
  unfold initPassEvents at h
  obtain ⟨m, hm, he⟩ := List.mem_filterMap.mp h
  by_cases hinit : MdIsImageInitialized m
  · simp [hinit] at he
  · rw [if_neg hinit] at he
    exact ⟨m, hm, by simpa using hinit, (Option.some_injective _ he).symm⟩

theorem attachResumeEvents_shape {env : AttachEnv} {e : Event}
    (h : e ∈ attachResumeEvents env) : e = Event.resumeProcess := by
  unfold attachResumeEvents at h
  split at h <;> simp at h
  exact h

theorem attachWindowWaitEvents_shape {env : AttachEnv} {e : Event}
    (h : e ∈ attachWindowWaitEvents env) : e = Event.waitForWindow := by
  unfold attachWindowWaitEvents at h
  split at h <;> simp at h
  exact h

theorem endKeyWait_shape {keys : List Bool} {e : Event}
    (h : e ∈ endKeyWait keys) :
    e = Event.sleepPoll ∨ e = Event.freeLibrary := by
  induction keys with
  | nil => simp [endKeyWait] at h
  | cons k rest ih =>
    rw [endKeyWait] at h
    split at h
    · right; simpa using h
    · rcases List.mem_cons.mp h with h1 | h2
      · left; exact h1
      · exact ih h2

/-! ## Phase-ordering helper -/

theorem phaseOrdered_split {x y : List Event} {p q : Event → Prop}
    (hp : ∀ e ∈ y, ¬ p e) (hq : ∀ e ∈ x, ¬ q e) :
    phaseOrdered (x ++ y) p q := by
  intro i j hi hj
  have hix : (i : Nat) < x.length := by
    by_contra hge
    push_neg at hge
    have hmem : (x ++ y).get i ∈ y := by
      rw [List.get_eq_getElem, List.getElem_append_right hge]
      exact List.getElem_mem _
    exact hp _ hmem hi
  have hjx : x.length ≤ (j : Nat) := by
    by_contra hlt
    push_neg at hlt
    have hmem : (x ++ y).get j ∈ x := by
      rw [List.get_eq_getElem, List.getElem_append_left hlt]
      exact List.getElem_mem _
    exact hq _ hmem hj
  omega

/-! ## Per-iteration effect lemmas -/

theorem preloadRel_of_step (m : AurieModule) : preloadRel m (preloadStep m) := by
  unfold preloadRel preloadStep MdpMarkModuleForPurge
  by_cases h : AurieSuccess (MdpDispatchEntry m.preinitHook) <;> simp [h]

theorem initRel_of_step (m : AurieModule) : initRel m (initStep m) := by
  unfold initRel initStep MdpMarkModuleForPurge
  by_cases h0 : MdIsImageInitialized m
  · simp [h0]
  · by_cases h1 : AurieSuccess (MdpDispatchEntry m.initHook) <;> simp [h0, h1]

theorem unmapRel_of_entry (initialId : Option Nat) (m : AurieModule) :
    unmapRel initialId m ((detachUnmapEntry initialId m).1) := by
  unfold unmapRel detachUnmapEntry MdpUnmapImage
  by_cases h : some m.id = initialId <;> simp [h]

theorem forall₂_map_self {α : Type} {r : α → α → Prop} {f : α → α}
    (hf : ∀ a, r a (f a)) : ∀ l : List α, List.Forall₂ r l (l.map f)
  | [] => List.Forall₂.nil
  | a :: l => List.Forall₂.cons (hf a) (forall₂_map_self hf l)

/-- **C4**: no pass that iterates the Registry removes a Module Record
while the iteration is in progress; the preload and init dispatch passes
relate each input record to its output record by a pure flag update
(`IsPreloaded`/`IsInitialized` on success, `MarkedForPurge` on failure,
identity/hooks/allocations untouched), the detach unmap loop leaves every
record in the list, and all three passes preserve the registry's length —
removal is left to the purge run after the pass, or to the clear after the
detach loop. -/
theorem dispatch_passes_mutate_flags_only :
    (∀ l : List AurieModule, List.Forall₂ preloadRel l (preloadPassList l)) ∧
    (∀ l : List AurieModule, List.Forall₂ initRel l (initPassList l)) ∧
    (∀ s : AurieState,
      List.Forall₂ (unmapRel s.initialImage) s.ldrModuleList
        (detachUnmappedList s)) ∧
    (∀ l : List AurieModule, (preloadPassList l).length = l.length) ∧
    (∀ l : List AurieModule, (initPassList l).length = l.length) ∧
    (∀ s : AurieState,
      (detachUnmappedList s).length = s.ldrModuleList.length) := by
  refine ⟨fun l => forall₂_map_self preloadRel_of_step l,
          fun l => forall₂_map_self initRel_of_step l,
          fun s => forall₂_map_self (unmapRel_of_entry s.initialImage) _,
          fun l => List.length_map l preloadStep,
          fun l => List.length_map l initStep,
          fun s => List.length_map _ _⟩

/-- **C5**: a record whose `IsInitialized` flag is set is skipped entirely
by a repeated init dispatch pass — it survives the pass unchanged and no
`Initialize` dispatch is made for it. -/
theorem init_pass_skips_initialized (l : List AurieModule) (m : AurieModule)
    (hnd : (l.map fun x => x.id).Nodup) (hm : m ∈ l)
    (hinit : m.flags.isInitialized = true) :
    m ∈ initPassList l ∧ Event.dispatchInit m.id ∉ initPassEvents l := by
  constructor
  · exact List.mem_map.mpr ⟨m, hm, initStep_of_initialized hinit⟩
  · intro hcon
    obtain ⟨x, hx, hxn, hxe⟩ := initPassEvents_shape hcon
    have hid : x.id = m.id := by
      injection hxe with h
      exact h.symm
    have hxm : x = m := List.inj_on_of_nodup_map hnd hx hm hid
    rw [hxm] at hxn
    rw [MdIsImageInitialized] at hxn
    rw [hinit] at hxn
    simp at hxn

theorem init_pass_skips_initialized_witness :
    (([(⟨7, "B.dll", ⟨true, true, false⟩, none, some AurieStatus.success,
        none, []⟩ : AurieModule)].map fun x => x.id).Nodup) ∧
    ((⟨7, "B.dll", ⟨true, true, false⟩, none, some AurieStatus.success,
        none, []⟩ : AurieModule) ∈
      [(⟨7, "B.dll", ⟨true, true, false⟩, none, some AurieStatus.success,
        none, []⟩ : AurieModule)]) ∧
    ((⟨7, "B.dll", ⟨true, true, false⟩, none, some AurieStatus.success,
        none, []⟩ : AurieModule).flags.isInitialized = true) ∧
    ((⟨7, "B.dll", ⟨true, true, false⟩, none, some AurieStatus.success,
        none, []⟩ : AurieModule) ∈
      initPassList
        [(⟨7, "B.dll", ⟨true, true, false⟩, none, some AurieStatus.success,
          none, []⟩ : AurieModule)] ∧
     Event.dispatchInit
        (⟨7, "B.dll", ⟨true, true, false⟩, none, some AurieStatus.success,
          none, []⟩ : AurieModule).id ∉
      initPassEvents
        [(⟨7, "B.dll", ⟨true, true, false⟩, none, some AurieStatus.success,
          none, []⟩ : AurieModule)]) :=
  ⟨by decide, by decide, by decide,
   init_pass_skips_initialized _ _ (by decide) (by decide) (by decide)⟩

/-- **C7**: when the detach notification carries a non-null reserved
parameter (OS teardown), `DllMain` returns `TRUE` at once, the loader
state is untouched and no collaborator is called; with a null reserved
parameter the unload sequencer `ArProcessDetach` runs synchronously and
its result is exactly the detach handler's. -/
theorem dllmain_detach_skip_on_teardown :
    (∀ s : AurieState, (DllMainDetach true s).1 = true) ∧
    (∀ s : AurieState, (DllMainDetach true s).2 = (s, [])) ∧
    (∀ s : AurieState, (DllMainDetach false s).1 = true) ∧
    (∀ s : AurieState, (DllMainDetach false s).2 = ArProcessDetach s) :=
  ⟨fun _ => rfl, fun _ => rfl, fun _ => rfl, fun _ => rfl⟩

/-! ## Order of the detach unload pass -/

theorem filterMap_unmapEventId_free (o : Nat) (l : List MemoryAllocation) :
    (l.map fun a => Event.freeAllocation o a.allocationBase).filterMap
      unmapEventId = [] := by
  induction l with
  | nil => rfl
  | cons a rest ih => simp [unmapEventId, ih]

theorem unmapIds_MdpUnmapImage (m : AurieModule) :
    (MdpUnmapImage m).2.filterMap unmapEventId = [m.id] := by
  unfold MdpUnmapImage
  cases m.unloadHook <;>
    simp [List.filterMap_append, unmapEventId, filterMap_unmapEventId_free]

theorem unmapIds_flatten (initialId : Option Nat) (l : List AurieModule) :
    ((l.map fun m => (detachUnmapEntry initialId m).2).flatten.filterMap
      unmapEventId) =
      ((l.filter fun m => !decide (some m.id = initialId)).map
        fun m => m.id) := by
  induction l with
  | nil => rfl
  | cons m rest ih =>
    simp only [List.map_cons, List.flatten_cons, List.filterMap_append,
      List.filter_cons]
    have hh : (detachUnmapEntry initialId m).2.filterMap unmapEventId =
        if some m.id = initialId then [] else [m.id] := by
      unfold detachUnmapEntry
      by_cases h : some m.id = initialId
      · simp [h]
      · simp [h, unmapIds_MdpUnmapImage]
    rw [hh, ih]
    by_cases h : some m.id = initialId
    · simp [h]
    · simp [h]

theorem filterMap_unmapEventId_detachFree (s : AurieState) :
    (detachFreeEvents s).filterMap unmapEventId = [] := by
  unfold detachFreeEvents
  cases detachInitialRecord s with
  | none => rfl
  | some m => exact filterMap_unmapEventId_free m.id m.memoryAllocations

/-- **C8**: the detach-time unload pass unmaps records in Registry (load)
order, skipping exactly the initial image — the ids carried by the unmap
events are the registry's ids with the initial image's id removed, in the
registry's own order; and the preload and init dispatch traces visit the
registry in that same forward order. -/
theorem detach_unload_forward_order :
    (∀ s : AurieState,
      (ArProcessDetach s).2.filterMap unmapEventId =
        ((s.ldrModuleList.filter fun m =>
          !decide (some m.id = s.initialImage)).map fun m => m.id)) ∧
    (∀ l : List AurieModule,
      (preloadPassEvents l).filterMap preinitEventId =
        l.map fun m => m.id) ∧
    (∀ l : List AurieModule,
      (initPassEvents l).filterMap initEventId =
        ((l.filter fun m => !MdIsImageInitialized m).map fun m => m.id)) := by
  refine ⟨fun s => ?_, fun l => ?_, fun l => ?_⟩
  · unfold ArProcessDetach detachUnmapEvents
    rw [List.filterMap_append, unmapIds_flatten,
      filterMap_unmapEventId_detachFree, List.append_nil]
  · induction l with
    | nil => rfl
    | cons m rest ih => simpa [preloadPassEvents, preinitEventId] using ih
  · induction l with
    | nil => rfl
    | cons m rest ih =>
      simp only [initPassEvents, List.filterMap_cons, List.filter_cons]
      by_cases h : MdIsImageInitialized m
      · simpa [h, initPassEvents] using ih
      · simpa [h, initEventId, initPassEvents] using ih

/-! ## End-key polling loop lemmas -/

theorem endKeyWait_no_free {keys : List Bool}
    (h : ∀ k ∈ keys, k = false) : Event.freeLibrary ∉ endKeyWait keys := by
  induction keys with
  | nil => simp [endKeyWait]
  | cons k rest ih =>
    have hk : k = false := h k (List.mem_cons_self k rest)
    rw [endKeyWait, hk]
    simp only [Bool.false_eq_true, if_false]
    intro hmem
    rcases List.mem_cons.mp hmem with h1 | h2
    · simp at h1
    · exact ih (fun x hx => h x (List.mem_cons_of_mem _ hx)) h2

theorem endKeyWait_getLast {keys : List Bool}
    (h : ∃ k ∈ keys, k = true) :
    (endKeyWait keys).getLast? = some Event.freeLibrary := by
  induction keys with
  | nil => simp at h
  | cons k rest ih =>
    cases k with
    | true => rw [endKeyWait]; simp
    | false =>
      rw [endKeyWait]
      simp only [Bool.false_eq_true, if_false]
      have hrest : ∃ x ∈ rest, x = true := by
        rcases h with ⟨x, hx, hxt⟩
        rcases List.mem_cons.mp hx with h1 | h2
        · rw [h1] at hxt; simp at hxt
        · exact ⟨x, h2, hxt⟩
      have hlast := ih hrest
      have hne : endKeyWait rest ≠ [] := by
        intro h0
        rw [h0] at hlast
        simp at hlast
      have hsplit : Event.sleepPoll :: endKeyWait rest =
          [Event.sleepPoll] ++ endKeyWait rest := rfl
      rw [hsplit, List.getLast?_append_of_ne_nil _ hne]
      exact hlast

/-! ## Detach find? preservation -/

theorem find?_unmapped (initialId : Option Nat) (l : List AurieModule) :
    ((l.map fun m => (detachUnmapEntry initialId m).1).find? fun m =>
      decide (some m.id = initialId)) =
      l.find? fun m => decide (some m.id = initialId) := by
  induction l with
  | nil => rfl
  | cons m rest ih =>
    rw [List.map_cons, List.find?_cons, List.find?_cons]
    by_cases h : some m.id = initialId
    · simp [detachUnmapEntry, h]
    · have hid : (detachUnmapEntry initialId m).1.id = m.id := by
        simp [detachUnmapEntry, h, MdpUnmapImage]
      simp only [hid]
      simp [h, ih]

/-- **C1**: a module whose `Preinitialize` hook fails during the preload
dispatch pass is marked for purge by that pass, is gone from the Registry
after the purge that follows the pass, and receives no `Initialize`
dispatch anywhere in the attach run. -/
theorem preload_failure_purged_no_init (env : AttachEnv) (i : Nat)
    (st : AurieStatus)
    (hq : env.queryImagePathOk = true)
    (hc : AurieSuccess env.createModuleStatus = true)
    (hf : AurieSuccess env.getImageFolderStatus = true)
    (hi : i < env.mods.length)
    (hhook : (env.mods.get ⟨i, hi⟩).preinit = some st)
    (hfail : AurieSuccess st = false) :
    (∀ m ∈ attachRegistryAfterPreload env, m.id = i + 1 →
      m.flags.markedForPurge = true) ∧
    (∀ m ∈ attachRegistryAfterFirstPurge env, m.id ≠ i + 1) ∧
    Event.dispatchInit (i + 1) ∉ (ArProcessAttach env).2 := by
  have hmark : ∀ m ∈ attachRegistryAfterPreload env, m.id = i + 1 →
      m.flags.markedForPurge = true := by
    intro m hm hid
    unfold attachRegistryAfterPreload preloadPassList at hm
    obtain ⟨m0, hm0, hstep⟩ := List.mem_map.mp hm
    have hid0 : m0.id = i + 1 := by
      rw [← preloadStep_id m0, hstep, hid]
    have hmk := mem_attachRegistryAfterMap_id_succ hi hm0 hid0
    have hhk : m0.preinitHook = some st := by
      rw [hmk]
      exact hhook
    rw [← hstep]
    unfold preloadStep
    rw [hhk]
    simp [MdpDispatchEntry, hfail, MdpMarkModuleForPurge]
  have hpurged : ∀ m ∈ attachRegistryAfterFirstPurge env, m.id ≠ i + 1 := by
    intro m hm hid
    unfold attachRegistryAfterFirstPurge MdpPurgeMarkedModules at hm
    obtain ⟨hmem, hkeep⟩ := List.mem_filter.mp hm
    have hm1 := hmark m hmem hid
    simp [hm1, hid] at hkeep
  refine ⟨hmark, hpurged, ?_⟩
  intro hmem
  rw [attach_run_eq env hq hc hf] at hmem
  simp only [List.mem_append, List.mem_singleton] at hmem
  rcases hmem with ((((h | h) | h) | h) | h) | h
  · obtain ⟨j, hj⟩ := preloadPassEvents_shape h
    simp at hj
  · have h2 := attachResumeEvents_shape h
    simp at h2
  · have h2 := attachWindowWaitEvents_shape h
    simp at h2
  · simp at h
  · obtain ⟨m, hm, _, he⟩ := initPassEvents_shape h
    injection he with hh
    exact hpurged m hm hh.symm
  · rcases endKeyWait_shape h with h2 | h2 <;> simp at h2

theorem preload_failure_purged_no_init_witness :
    envA.queryImagePathOk = true ∧
    AurieSuccess envA.createModuleStatus = true ∧
    AurieSuccess envA.getImageFolderStatus = true ∧
    0 < envA.mods.length ∧
    AurieSuccess AurieStatus.module_init_failed = false ∧
    ((∀ m ∈ attachRegistryAfterPreload envA, m.id = 0 + 1 →
        m.flags.markedForPurge = true) ∧
     (∀ m ∈ attachRegistryAfterFirstPurge envA, m.id ≠ 0 + 1) ∧
     Event.dispatchInit (0 + 1) ∉ (ArProcessAttach envA).2) :=
  ⟨rfl, rfl, rfl, by decide, rfl,
   preload_failure_purged_no_init envA 0 AurieStatus.module_init_failed
     rfl rfl rfl (by decide) (by decide) rfl⟩

/-- **C2**: after one run of the unload sequencer the Registry is empty
and the initial-image reference is null; every non-initial record in the
pre-state was unmapped; the record the persistent-memory loop walks is the
original initial record, each of whose allocations gets freed; the
intermediate state right after `MemoryAllocations.clear()` shows the
initial image's allocation list empty; and no allocation is reachable
through any record of the final state. -/
theorem detach_unload_sequencer_postconditions (s : AurieState) (k : Nat)
    (hinit : s.initialImage = some k) :
    ((ArProcessDetach s).1.ldrModuleList = [] ∧
     (ArProcessDetach s).1.initialImage = none) ∧
    (∀ m ∈ s.ldrModuleList, m.id ≠ k →
      Event.unmapImage m.id ∈ (ArProcessDetach s).2) ∧
    (detachInitialRecord s =
      s.ldrModuleList.find? fun m => decide (some m.id = s.initialImage)) ∧
    (∀ m, detachInitialRecord s = some m →
      ∀ a ∈ m.memoryAllocations,
        Event.freeAllocation m.id a.allocationBase ∈ (ArProcessDetach s).2) ∧
    (∀ m ∈ (detachAfterInitialFree s).ldrModuleList, m.id = k →
      m.memoryAllocations = []) ∧
    (∀ m ∈ (ArProcessDetach s).1.ldrModuleList, m.memoryAllocations = []) := by
  refine ⟨⟨rfl, rfl⟩, ?_, ?_, ?_, ?_, ?_⟩
  · intro m hm hid
    unfold ArProcessDetach
    apply List.mem_append.mpr
    left
    unfold detachUnmapEvents
    rw [List.mem_flatten]
    refine ⟨(detachUnmapEntry s.initialImage m).2,
      List.mem_map.mpr ⟨m, hm, rfl⟩, ?_⟩
    unfold detachUnmapEntry
    rw [hinit, if_neg (by simp [hid])]
    unfold MdpUnmapImage
    simp
  · exact find?_unmapped s.initialImage s.ldrModuleList
  · intro m hmfind a ha
    unfold ArProcessDetach
    apply List.mem_append.mpr
    right
    unfold detachFreeEvents
    rw [hmfind]
    exact List.mem_map.mpr ⟨a, ha, rfl⟩
  · intro m hm hid
    unfold detachAfterInitialFree at hm
    obtain ⟨m0, hm0, heq⟩ := List.mem_map.mp hm
    by_cases h : some m0.id = s.initialImage
    · rw [if_pos h] at heq
      rw [← heq]
    · rw [if_neg h] at heq
      rw [heq, hinit] at h
      exact absurd (by rw [hid]) h
  · intro m hm
    simp [ArProcessDetach] at hm

theorem detach_unload_sequencer_postconditions_witness :
    stateD.initialImage = some 0 ∧
    (((ArProcessDetach stateD).1.ldrModuleList = [] ∧
      (ArProcessDetach stateD).1.initialImage = none) ∧
     (∀ m ∈ stateD.ldrModuleList, m.id ≠ 0 →
       Event.unmapImage m.id ∈ (ArProcessDetach stateD).2) ∧
     (detachInitialRecord stateD =
       stateD.ldrModuleList.find? fun m =>
         decide (some m.id = stateD.initialImage)) ∧
     (∀ m, detachInitialRecord stateD = some m →
       ∀ a ∈ m.memoryAllocations,
         Event.freeAllocation m.id a.allocationBase ∈
           (ArProcessDetach stateD).2) ∧
     (∀ m ∈ (detachAfterInitialFree stateD).ldrModuleList, m.id = 0 →
       m.memoryAllocations = []) ∧
     (∀ m ∈ (ArProcessDetach stateD).1.ldrModuleList,
       m.memoryAllocations = [])) :=
  ⟨rfl, detach_unload_sequencer_postconditions stateD 0 rfl⟩

/-- **C3**: in the attach sequence the host resume (if any) comes strictly
before any window-readiness wait; the window wait happens exactly when the
host subsystem is the GUI subsystem (non-windowed hosts only get the
input-idle wait); and every `Initialize` dispatch comes strictly after
both readiness waits. -/
theorem attach_resume_before_waits (env : AttachEnv)
    (hq : env.queryImagePathOk = true)
    (hc : AurieSuccess env.createModuleStatus = true)
    (hf : AurieSuccess env.getImageFolderStatus = true) :
    phaseOrdered (ArProcessAttach env).2
      (fun e => e = Event.resumeProcess)
      (fun e => e = Event.waitForWindow) ∧
    (env.subsystem ≠ IMAGE_SUBSYSTEM_WINDOWS_GUI →
      Event.waitForWindow ∉ (ArProcessAttach env).2) ∧
    (env.subsystem = IMAGE_SUBSYSTEM_WINDOWS_GUI →
      Event.waitForWindow ∈ (ArProcessAttach env).2) ∧
    phaseOrdered (ArProcessAttach env).2
      (fun e => e = Event.waitForWindow ∨ e = Event.waitForInputIdle)
      (fun e => ∃ i, e = Event.dispatchInit i) := by
  refine ⟨?_, ?_, ?_, ?_⟩
  · have hE : (ArProcessAttach env).2 =
        (preloadPassEvents (attachRegistryAfterMap env) ++
         attachResumeEvents env) ++
        (attachWindowWaitEvents env ++
         ([Event.waitForInputIdle] ++
          (initPassEvents (attachRegistryAfterFirstPurge env) ++
           endKeyWait env.endKeyStates))) := by
      rw [attach_run_eq env hq hc hf]
      simp [List.append_assoc]
    rw [hE]
    apply phaseOrdered_split
    · intro e he hp
      rw [hp] at he
      simp only [List.mem_append, List.mem_singleton] at he
      rcases he with h | h | h | h
      · have h2 := attachWindowWaitEvents_shape h
        simp at h2
      · simp at h
      · obtain ⟨m, _, _, h2⟩ := initPassEvents_shape h
        simp at h2
      · rcases endKeyWait_shape h with h2 | h2 <;> simp at h2
    · intro e he hp
      rw [hp] at he
      simp only [List.mem_append] at he
      rcases he with h | h
      · obtain ⟨j, hj⟩ := preloadPassEvents_shape h
        simp at hj
      · have h2 := attachResumeEvents_shape h
        simp at h2
  · intro hsub hmem
    rw [attach_run_eq env hq hc hf] at hmem
    simp only [List.mem_append, List.mem_singleton] at hmem
    rcases hmem with ((((h | h) | h) | h) | h) | h
    · obtain ⟨j, hj⟩ := preloadPassEvents_shape h
      simp at hj
    · have h2 := attachResumeEvents_shape h
      simp at h2
    · unfold attachWindowWaitEvents at h
      rw [if_neg hsub] at h
      simp at h
    · simp at h
    · obtain ⟨m, _, _, h2⟩ := initPassEvents_shape h
      simp at h2
    · rcases endKeyWait_shape h with h2 | h2 <;> simp at h2
  · intro hsub
    rw [attach_run_eq env hq hc hf]
    simp [attachWindowWaitEvents, hsub, List.mem_append]
  · have hE : (ArProcessAttach env).2 =
        (preloadPassEvents (attachRegistryAfterMap env) ++
         (attachResumeEvents env ++
          (attachWindowWaitEvents env ++ [Event.waitForInputIdle]))) ++
        (initPassEvents (attachRegistryAfterFirstPurge env) ++
         endKeyWait env.endKeyStates) := by
      rw [attach_run_eq env hq hc hf]
      simp [List.append_assoc]
    rw [hE]
    apply phaseOrdered_split
    · intro e he hp
      rcases hp with hp | hp <;> rw [hp] at he <;>
        simp only [List.mem_append] at he
      · rcases he with h | h
        · obtain ⟨m, _, _, h2⟩ := initPassEvents_shape h
          simp at h2
        · rcases endKeyWait_shape h with h2 | h2 <;> simp at h2
      · rcases he with h | h
        · obtain ⟨m, _, _, h2⟩ := initPassEvents_shape h
          simp at h2
        · rcases endKeyWait_shape h with h2 | h2 <;> simp at h2
    · intro e he hp
      obtain ⟨j, hj⟩ := hp
      rw [hj] at he
      simp only [List.mem_append, List.mem_singleton] at he
      rcases he with h | h | h | h
      · obtain ⟨j2, hj2⟩ := preloadPassEvents_shape h
        simp at hj2
      · have h2 := attachResumeEvents_shape h
        simp at h2
      · have h2 := attachWindowWaitEvents_shape h
        simp at h2
      · simp at h

theorem attach_resume_before_waits_witness :
    envA.queryImagePathOk = true ∧
    AurieSuccess envA.createModuleStatus = true ∧
    AurieSuccess envA.getImageFolderStatus = true ∧
    (phaseOrdered (ArProcessAttach envA).2
      (fun e => e = Event.resumeProcess)
      (fun e => e = Event.waitForWindow) ∧
    (envA.subsystem ≠ IMAGE_SUBSYSTEM_WINDOWS_GUI →
      Event.waitForWindow ∉ (ArProcessAttach envA).2) ∧
    (envA.subsystem = IMAGE_SUBSYSTEM_WINDOWS_GUI →
      Event.waitForWindow ∈ (ArProcessAttach envA).2) ∧
    phaseOrdered (ArProcessAttach envA).2
      (fun e => e = Event.waitForWindow ∨ e = Event.waitForInputIdle)
      (fun e => ∃ i, e = Event.dispatchInit i)) :=
  ⟨rfl, rfl, rfl, attach_resume_before_waits envA rfl rfl rfl⟩

/-- **C6**: whenever any of the three core-setup steps fails (host path
query, initial module creation, working-folder resolution), the attach
worker's whole trace is a single fatal message — so the message is shown
exactly once, no lifecycle hook is dispatched and no readiness wait or
resume is attempted — and the registry it leaves behind holds no mod
record (at most the initial image, id 0). -/
theorem attach_core_setup_failure_fatal (env : AttachEnv)
    (h : ¬(env.queryImagePathOk = true ∧
           AurieSuccess env.createModuleStatus = true ∧
           AurieSuccess env.getImageFolderStatus = true)) :
    (∃ t, (ArProcessAttach env).2 = [Event.fatalMessage t]) ∧
    (∀ m ∈ (ArProcessAttach env).1.ldrModuleList, m.id = 0) := by
  by_cases hquery : env.queryImagePathOk = false
  · unfold ArProcessAttach
    rw [if_pos hquery]
    exact ⟨⟨_, rfl⟩, by simp⟩
  · have hq1 : env.queryImagePathOk = true := by
      cases hb : env.queryImagePathOk
      · exact absurd hb hquery
      · rfl
    by_cases hcreate : AurieSuccess env.createModuleStatus = false
    · unfold ArProcessAttach
      rw [if_neg hquery, if_pos hcreate]
      exact ⟨⟨_, rfl⟩, by simp⟩
    · have hc1 : AurieSuccess env.createModuleStatus = true := by
        cases hb : AurieSuccess env.createModuleStatus
        · exact absurd hb hcreate
        · rfl
      by_cases hfold : AurieSuccess env.getImageFolderStatus = false
      · unfold ArProcessAttach
        rw [if_neg hquery, if_neg hcreate, if_pos hfold]
        refine ⟨⟨_, rfl⟩, ?_⟩
        intro m hm
        rw [List.mem_singleton] at hm
        rw [hm]
        rfl
      · have hf1 : AurieSuccess env.getImageFolderStatus = true := by
          cases hb : AurieSuccess env.getImageFolderStatus
          · exact absurd hb hfold
          · rfl
        exact absurd ⟨hq1, hc1, hf1⟩ h

theorem attach_core_setup_failure_fatal_witness :
    ¬(envB.queryImagePathOk = true ∧
      AurieSuccess envB.createModuleStatus = true ∧
      AurieSuccess envB.getImageFolderStatus = true) ∧
    ((∃ t, (ArProcessAttach envB).2 = [Event.fatalMessage t]) ∧
     (∀ m ∈ (ArProcessAttach envB).1.ldrModuleList, m.id = 0)) :=
  ⟨by decide, attach_core_setup_failure_fatal envB (by decide)⟩

/-- **C9**: after the init pass and its purge, the attach worker does not
tear anything down on its own: as long as every END-key reading is false,
`FreeLibraryAndExitThread` is never reached; once some reading is true,
the library release is the very last event of the run; and every
`Initialize` dispatch comes strictly before the library release that
triggers detach. -/
theorem attach_worker_waits_for_end_key (env : AttachEnv)
    (hq : env.queryImagePathOk = true)
    (hc : AurieSuccess env.createModuleStatus = true)
    (hf : AurieSuccess env.getImageFolderStatus = true) :
    ((∀ k ∈ env.endKeyStates, k = false) →
      Event.freeLibrary ∉ (ArProcessAttach env).2) ∧
    ((∃ k ∈ env.endKeyStates, k = true) →
      ((ArProcessAttach env).2).getLast? = some Event.freeLibrary) ∧
    phaseOrdered (ArProcessAttach env).2
      (fun e => ∃ i, e = Event.dispatchInit i)
      (fun e => e = Event.freeLibrary) := by
  refine ⟨?_, ?_, ?_⟩
  · intro hall hmem
    rw [attach_run_eq env hq hc hf] at hmem
    simp only [List.mem_append, List.mem_singleton] at hmem
    rcases hmem with ((((h | h) | h) | h) | h) | h
    · obtain ⟨j, hj⟩ := preloadPassEvents_shape h
      simp at hj
    · have h2 := attachResumeEvents_shape h
      simp at h2
    · have h2 := attachWindowWaitEvents_shape h
      simp at h2
    · simp at h
    · obtain ⟨m, _, _, h2⟩ := initPassEvents_shape h
      simp at h2
    · exact endKeyWait_no_free hall h
  · intro hpress
    rw [attach_run_eq env hq hc hf]
    have hlast := endKeyWait_getLast hpress
    have hne : endKeyWait env.endKeyStates ≠ [] := by
      intro h0
      rw [h0] at hlast
      simp at hlast
    rw [List.getLast?_append_of_ne_nil _ hne]
    exact hlast
  · have hE : (ArProcessAttach env).2 =
        (preloadPassEvents (attachRegistryAfterMap env) ++
         (attachResumeEvents env ++
          (attachWindowWaitEvents env ++
           ([Event.waitForInputIdle] ++
            initPassEvents (attachRegistryAfterFirstPurge env))))) ++
        endKeyWait env.endKeyStates := by
      rw [attach_run_eq env hq hc hf]
      simp [List.append_assoc]
    rw [hE]
    apply phaseOrdered_split
    · intro e he hp
      obtain ⟨j, hj⟩ := hp
      rw [hj] at he
      rcases endKeyWait_shape he with h2 | h2 <;> simp at h2
    · intro e he hp
      rw [hp] at he
      simp only [List.mem_append, List.mem_singleton] at he
      rcases he with h | h | h | h | h
      · obtain ⟨j, hj⟩ := preloadPassEvents_shape h
        simp at hj
      · have h2 := attachResumeEvents_shape h
        simp at h2
      · have h2 := attachWindowWaitEvents_shape h
        simp at h2
      · simp at h
      · obtain ⟨m, _, _, h2⟩ := initPassEvents_shape h
        simp at h2

theorem attach_worker_waits_for_end_key_witness :
    envA.queryImagePathOk = true ∧
    AurieSuccess envA.createModuleStatus = true ∧
    AurieSuccess envA.getImageFolderStatus = true ∧
    (((∀ k ∈ envA.endKeyStates, k = false) →
       Event.freeLibrary ∉ (ArProcessAttach envA).2) ∧
     ((∃ k ∈ envA.endKeyStates, k = true) →
       ((ArProcessAttach envA).2).getLast? = some Event.freeLibrary) ∧
     phaseOrdered (ArProcessAttach envA).2
       (fun e => ∃ i, e = Event.dispatchInit i)
       (fun e => e = Event.freeLibrary)) :=
  ⟨rfl, rfl, rfl, attach_worker_waits_for_end_key envA rfl rfl rfl⟩

/-- **C10**: the attach sequence resumes the host whenever the suspension
query fails outright or reports the process suspended — a failed query
never leaves a suspended host unresumed. -/
theorem attach_resume_on_failed_query (env : AttachEnv)
    (hq : env.queryImagePathOk = true)
    (hc : AurieSuccess env.createModuleStatus = true)
    (hf : AurieSuccess env.getImageFolderStatus = true)
    (h : AurieSuccess env.suspendQueryStatus = false ∨
         env.isProcessSuspended = true) :
    Event.resumeProcess ∈ (ArProcessAttach env).2 := by
  rw [attach_run_eq env hq hc hf]
  have hr : attachResumeEvents env = [Event.resumeProcess] := by
    unfold attachResumeEvents
    rcases h with h | h <;> simp [h]
  simp [hr, List.mem_append]

theorem attach_resume_on_failed_query_witness :
    envA.queryImagePathOk = true ∧
    AurieSuccess envA.createModuleStatus = true ∧
    AurieSuccess envA.getImageFolderStatus = true ∧
    (AurieSuccess envA.suspendQueryStatus = false ∨
     envA.isProcessSuspended = true) ∧
    Event.resumeProcess ∈ (ArProcessAttach envA).2 :=
  ⟨rfl, rfl, rfl, Or.inl rfl,
   attach_resume_on_failed_query envA rfl rfl rfl (Or.inl rfl)⟩

end Aurie

